import Mathlib

/-!
Verification development for the `simple-spotify-downloader` repository.

The Python sources are shallowly embedded as Lean definitions:

* `src/modules/downloader.py` — the storage-quota machinery of the
  `Downloader` class (`_directory_size`, `_enforce_storage_quota`,
  `CLEANUP_BATCH`, the `max_storage_bytes` computation of `__init__`)
  over an explicit filesystem state `FSState`;
* `src/spotify-bot.py` — configuration parsing (`get_optional_int_env`,
  the `ZIP_THRESHOLD` fallback), archive-name sanitization and the
  size-chunking loop of `download_and_zip_tracks`;
* `src/modules/spotify_api.py` — the three link-id extractors and
  `is_spotify_link`.

Machine-level effects are made explicit: the filesystem is a value of
`FSState`, `database.delete_track` calls are returned as an ordered list of
track ids, and Python exceptions are `Except` errors.  File `stat` calls are
modelled as always succeeding, and cover-image unlinks as always succeeding;
mp3 unlinks may raise `OSError` for the stems listed in `FSState.unlinkFails`
(these are exactly the failure behaviors the properties below exercise).
-/

/-- A file inside the downloads tree: `stem` is the filename without its
extension, `size` the byte size reported by `stat`, `ctime` the filesystem
creation timestamp (`st_ctime`). -/
structure FSFile where
  stem : String
  size : Nat
  ctime : Nat
deriving DecidableEq

/-- The downloads directory tree owned by `src/modules/downloader.py`:
`tracks` are the `downloads/tracks/<stem>.mp3` files, `covers` the
`downloads/covers/<stem>.jpg` files.  `unlinkFails` lists the track stems
whose `.mp3` unlink raises `OSError`. -/
structure FSState where
  tracks : List FSFile
  covers : List FSFile
  unlinkFails : List String
deriving DecidableEq

/-- Constant `CLEANUP_BATCH = 2` (downloader.py line 18). -/
def CLEANUP_BATCH : Nat := 2

/-- Embeds `Downloader._directory_size` applied to the downloads root
(downloader.py lines 115-133): the total byte size of every file under the
tree, i.e. of all tracks and covers. -/
def directory_size (st : FSState) : Nat :=
  (st.tracks.map (fun f => f.size)).sum + (st.covers.map (fun f => f.size)).sum

/-- The `max_storage_bytes` computation of `Downloader.__init__`
(downloader.py lines 21-32): `None` or a non-positive `max_storage_mb`
disables the quota (0), otherwise the limit is `max_storage_mb * 1024 * 1024`
bytes. -/
def max_storage_bytes (max_storage_mb : Option Int) : Nat :=
  match max_storage_mb with
  | none => 0
  | some m => if m ≤ 0 then 0 else m.toNat * 1024 * 1024

instance fsFileCtimeLeDecidable :
    DecidableRel (fun a b : FSFile => a.ctime ≤ b.ctime) :=
  fun a b => Nat.decLe a.ctime b.ctime

/-- Embeds `sorted(TRACKS_DIR.glob('*.mp3'), key=lambda path: path.stat().st_ctime)`
(downloader.py lines 155-158).  Python `sorted` is a stable sort keyed by
`st_ctime`; a stable sort with respect to a total preorder is extensionally
unique, so insertion sort gives the same list. -/
def sortByCtime (files : List FSFile) : List FSFile :=
  List.insertionSort (fun a b => a.ctime ≤ b.ctime) files

/-- The per-file body of the eviction loop (downloader.py lines 164-177):
try to unlink the mp3; on success log, call `database.delete_track(path.stem)`
and unlink the matching `<stem>.jpg` cover if present; an `OSError` from the
mp3 unlink leaves that track's file, cover and cache row untouched.  Returns
the new filesystem state and the `delete_track` calls made (in order). -/
def evictFile (st : FSState) (f : FSFile) : FSState × List String :=
  if f.stem ∈ st.unlinkFails then (st, [])
  else
    ({ st with
        tracks := st.tracks.filter (fun t => t.stem ≠ f.stem),
        covers := st.covers.filter (fun c => c.stem ≠ f.stem) },
      [f.stem])

/-- The `for path in track_files[:CLEANUP_BATCH]` loop (downloader.py
lines 164-177) applied left to right.  `deleted_something` is true exactly
when the returned deletion list is nonempty, since it is only set after a
successful mp3 unlink, which always also records a `delete_track` call. -/
def evictBatch (st : FSState) (batch : List FSFile) : FSState × List String :=
  match batch with
  | [] => (st, [])
  | f :: rest =>
    let r := evictFile st f
    let r2 := evictBatch r.1 rest
    (r2.1, r.2 ++ r2.2)

/-- The `while total_size > self.max_storage_bytes` loop of
`_enforce_storage_quota` (downloader.py lines 154-185), written with explicit
fuel so that it is structurally recursive.  One iteration: re-list and sort
the mp3 files (break when none remain), evict the oldest `CLEANUP_BATCH`
files, recompute the total size, break with a stall warning when nothing at
all was deleted, and otherwise loop while still over the limit.
`enforce_storage_quota` supplies fuel `tracks.length + 1`; the fuel is
irrelevant from that point on (see `evictLoop_fuel_irrelevant`), which is the
termination argument for the Python loop. -/
def evictLoop (maxBytes : Nat) : Nat → FSState → FSState × List String
  | 0, st => (st, [])
  | Nat.succ fuel, st =>
    match sortByCtime st.tracks with
    | [] => (st, [])
    | f :: fs =>
      let r := evictBatch st ((f :: fs).take CLEANUP_BATCH)
      if r.2 = [] then (r.1, [])
      else if directory_size r.1 ≤ maxBytes then r
      else
        let r2 := evictLoop maxBytes fuel r.1
        (r2.1, r.2 ++ r2.2)

/-- Embeds `Downloader._enforce_storage_quota` (downloader.py lines 135-185):
a no-op when the quota is disabled (`max_storage_bytes` falsy, i.e. 0) or the
current total size is within the limit; otherwise run the eviction loop.
Returns the final filesystem state together with the ordered list of track
ids passed to `database.delete_track`. -/
def enforce_storage_quota (maxBytes : Nat) (st : FSState) : FSState × List String :=
  if maxBytes = 0 then (st, [])
  else if directory_size st ≤ maxBytes then (st, [])
  else evictLoop maxBytes (st.tracks.length + 1) st

/-! ### Helper lemmas about eviction -/

/-- Filtering strictly shortens a list that contains an element failing the
predicate. -/
theorem length_filter_lt_of_mem {α : Type} {l : List α} {p : α → Bool} {x : α}
    (hx : x ∈ l) (hp : p x = false) : (l.filter p).length < l.length := by
  induction l with
  | nil => cases hx
  | cons y ys ih =>
    rcases List.mem_cons.1 hx with rfl | hmem
    · simp only [List.filter_cons, hp, Bool.false_eq_true, if_false, List.length_cons]
      exact Nat.lt_succ_of_le (List.length_filter_le p ys)
    · cases hpy : p y with
      | false =>
        simp only [List.filter_cons, hpy, Bool.false_eq_true, if_false, List.length_cons]
        exact Nat.lt_succ_of_lt (ih hmem)
      | true =>
        simp only [List.filter_cons, hpy, if_true, List.length_cons]
        exact Nat.succ_lt_succ (ih hmem)

theorem evictFile_unlinkFails (st : FSState) (f : FSFile) :
    (evictFile st f).1.unlinkFails = st.unlinkFails := by
  unfold evictFile
  split <;> rfl

theorem evictFile_tracks_length_le (st : FSState) (f : FSFile) :
    (evictFile st f).1.tracks.length ≤ st.tracks.length := by
  unfold evictFile
  split
  · exact Nat.le_refl _
  · exact List.length_filter_le _ _

theorem evictBatch_tracks_length_le (batch : List FSFile) (st : FSState) :
    (evictBatch st batch).1.tracks.length ≤ st.tracks.length := by
  induction batch generalizing st with
  | nil => exact Nat.le_refl _
  | cons f rest ih =>
    exact Nat.le_trans (ih (evictFile st f).1) (evictFile_tracks_length_le st f)

/-- If every file of the batch is an actual track of the state and some
deletion was recorded, the batch strictly removed at least one track. -/
theorem evictBatch_tracks_length_lt (batch : List FSFile) (st : FSState)
    (hsub : ∀ f ∈ batch, f ∈ st.tracks)
    (hne : (evictBatch st batch).2 ≠ []) :
    (evictBatch st batch).1.tracks.length < st.tracks.length := by
  induction batch generalizing st with
  | nil => exact absurd rfl hne
  | cons f rest ih =>
    by_cases hf : f.stem ∈ st.unlinkFails
    · have hfile : evictFile st f = (st, []) := by
        unfold evictFile; simp [hf]
      have hrec : evictBatch st (f :: rest) = evictBatch st rest := by
        simp [evictBatch, hfile]
      rw [hrec] at hne ⊢
      exact ih st (fun g hg => hsub g (List.mem_cons_of_mem f hg)) hne
    · have hfile : evictFile st f =
          ({ st with
              tracks := st.tracks.filter (fun t => t.stem ≠ f.stem),
              covers := st.covers.filter (fun c => c.stem ≠ f.stem) },
            [f.stem]) := by
        unfold evictFile; simp [hf]
      have hmem : f ∈ st.tracks := hsub f (List.mem_cons_self f rest)
      have hlt : (st.tracks.filter (fun t => t.stem ≠ f.stem)).length <
          st.tracks.length := by
        apply length_filter_lt_of_mem hmem
        simp
      calc (evictBatch st (f :: rest)).1.tracks.length
          ≤ (st.tracks.filter (fun t => t.stem ≠ f.stem)).length := by
            simp only [evictBatch, hfile]
            exact evictBatch_tracks_length_le rest _
        _ < st.tracks.length := hlt

/-- If no deletion was recorded, the batch changed nothing. -/
theorem evictBatch_eq_of_nil (batch : List FSFile) (st : FSState)
    (hnil : (evictBatch st batch).2 = []) : (evictBatch st batch).1 = st := by
  induction batch generalizing st with
  | nil => rfl
  | cons f rest ih =>
    by_cases hf : f.stem ∈ st.unlinkFails
    · have hfile : evictFile st f = (st, []) := by
        unfold evictFile; simp [hf]
      have hrec : evictBatch st (f :: rest) = evictBatch st rest := by
        simp [evictBatch, hfile]
      rw [hrec] at hnil ⊢
      exact ih st hnil
    · exfalso
      have hfile : evictFile st f =
          ({ st with
              tracks := st.tracks.filter (fun t => t.stem ≠ f.stem),
              covers := st.covers.filter (fun c => c.stem ≠ f.stem) },
            [f.stem]) := by
        unfold evictFile; simp [hf]
      simp [evictBatch, hfile] at hnil

/-- When every file of the batch fails to unlink, the batch is a no-op and
records no deletions. -/
theorem evictBatch_all_fail (batch : List FSFile) (st : FSState)
    (hall : ∀ f ∈ batch, f.stem ∈ st.unlinkFails) :
    evictBatch st batch = (st, []) := by
  induction batch with
  | nil => rfl
  | cons f rest ih =>
    have hfile : evictFile st f = (st, []) := by
      unfold evictFile
      simp [hall f (List.mem_cons_self f rest)]
    have hrest : evictBatch st rest = (st, []) := by
      exact ih (fun g hg => hall g (List.mem_cons_of_mem f hg))
    simp [evictBatch, hfile, hrest]

/-- Every member of the eviction candidate batch is a track of the state. -/
theorem batch_mem_tracks (st : FSState) {f : FSFile} {l : List FSFile}
    (hsort : sortByCtime st.tracks = l) (hf : f ∈ l.take CLEANUP_BATCH) :
    f ∈ st.tracks := by
  have h1 : f ∈ l := List.mem_of_mem_take hf
  rw [← hsort] at h1
  exact (List.mem_insertionSort _).1 h1

/-- The eviction loop's result does not depend on the fuel, as long as the
fuel exceeds the number of track files: each continuing iteration deletes at
least one track.  This is the termination argument of the `while` loop in
`_enforce_storage_quota`. -/
theorem evictLoop_fuel_irrelevant (maxBytes : Nat) :
    ∀ (fuel1 fuel2 : Nat) (st : FSState),
      st.tracks.length < fuel1 → st.tracks.length < fuel2 →
      evictLoop maxBytes fuel1 st = evictLoop maxBytes fuel2 st := by
  intro fuel1
  induction fuel1 with
  | zero => intro fuel2 st h1 _; cases h1
  | succ a ih =>
    intro fuel2 st h1 h2
    match fuel2, h2 with
    | Nat.succ b, h2 =>
      show evictLoop maxBytes (Nat.succ a) st = evictLoop maxBytes (Nat.succ b) st
      unfold evictLoop
      cases hsort : sortByCtime st.tracks with
      | nil => rfl
      | cons f fs =>
        simp only
        set r := evictBatch st ((f :: fs).take CLEANUP_BATCH) with hr
        by_cases hnil : r.2 = []
        · simp [hnil]
        · simp only [hnil, if_false]
          by_cases hsize : directory_size r.1 ≤ maxBytes
          · simp [hsize]
          · simp only [hsize, if_false]
            have hlt : r.1.tracks.length < st.tracks.length := by
              apply evictBatch_tracks_length_lt _ _ _ hnil
              intro g hg
              exact batch_mem_tracks st hsort hg
            have ha : r.1.tracks.length < a := Nat.lt_of_lt_of_le hlt (Nat.lt_succ_iff.1 h1)
            have hb : r.1.tracks.length < b := Nat.lt_of_lt_of_le hlt (Nat.lt_succ_iff.1 h2)
            rw [ih b r.1 ha hb]

/-! ### Archive packaging (`src/spotify-bot.py`) -/

/-- Constant `MAX_ZIP_SIZE = 48 * 1024 * 1024` (spotify-bot.py line 72). -/
def MAX_ZIP_SIZE : Nat := 48 * 1024 * 1024

/-- The chunk-splitting loop of `download_and_zip_tracks` (spotify-bot.py
lines 494-506), with each downloaded file represented by its
`path.stat().st_size`.  A new group is flushed when adding the next file
would push the running size over `MAX_ZIP_SIZE` and the current group is
nonempty; the file is then appended to the (possibly fresh) group. -/
def zipChunksGo : List Nat → List Nat → Nat → List (List Nat) → List (List Nat)
  | [], cur, _, acc => if cur = [] then acc else acc ++ [cur]
  | size :: rest, cur, curSize, acc =>
    if curSize + size > MAX_ZIP_SIZE ∧ cur ≠ [] then
      zipChunksGo rest [size] size (acc ++ [cur])
    else
      zipChunksGo rest (cur ++ [size]) (curSize + size) acc

/-- Embeds `zip_chunks` as built by `download_and_zip_tracks` from the list of
downloaded file sizes. -/
def zipChunks (sizes : List Nat) : List (List Nat) :=
  zipChunksGo sizes [] 0 []

/-- The character class of `re.sub(r'[\/:*?"<>|]', '_', collection_name)`
(spotify-bot.py line 458).  In a regular expression `\/` is an escaped
forward slash, so the class contains the eight characters
`/ : * ? " < > |` — and not the backslash. -/
def zipNameForbidden (c : Char) : Bool :=
  c = '/' || c = ':' || c = '*' || c = '?' || c = '"' || c = '<' || c = '>' || c = '|'

/-- Models `re.sub` with a single-character class: scan left to right, replacing
each matching character with an underscore. -/
def reSubZipForbidden : List Char → List Char
  | [] => []
  | c :: cs => (if zipNameForbidden c then '_' else c) :: reSubZipForbidden cs

/-- Embeds `sanitized_collection_name` (spotify-bot.py line 458). -/
def sanitized_collection_name (collection_name : String) : String :=
  String.mk (reSubZipForbidden collection_name.data)

/-- Embeds `zip_filename` for the chunk at 0-based enumeration index `i`
(spotify-bot.py lines 508-510): `part_num = i + 1` and the name is
`f"{sanitized_collection_name} (Часть {part_num}).zip"`. -/
def zip_filename (collection_name : String) (i : Nat) : String :=
  sanitized_collection_name collection_name ++ " (Часть " ++ toString (i + 1) ++ ").zip"

/-! ### Configuration parsing (`src/spotify-bot.py`) -/

/-- The whitespace characters removed by Python `str.strip()` (the ASCII
ones; the sources only ever meet ASCII whitespace). -/
def pyWhitespace (c : Char) : Bool :=
  c = ' ' || c = '\t' || c = '\n' || c = '\r' || c = '\x0b' || c = '\x0c'

/-- Models `text.strip()`: drop whitespace from both ends. -/
def pyStrip (l : List Char) : List Char :=
  ((l.dropWhile pyWhitespace).reverse.dropWhile pyWhitespace).reverse

/-- Digit run accepted by Python `int` after the sign: at least one decimal
digit, with single underscores allowed only between digits.  Accumulates the
decimal value. -/
def pyDigitsGo (acc : Nat) : List Char → Option Nat
  | [] => some acc
  | '_' :: [] => none
  | '_' :: c :: cs =>
    if c.isDigit then pyDigitsGo (acc * 10 + (c.toNat - 48)) cs else none
  | c :: cs =>
    if c.isDigit then pyDigitsGo (acc * 10 + (c.toNat - 48)) cs else none

/-- Nonempty digit run accepted by Python `int`. -/
def pyDigits : List Char → Option Nat
  | [] => none
  | c :: cs => if c.isDigit then pyDigitsGo (c.toNat - 48) cs else none

/-- Python `int(value)` on a string: optional surrounding whitespace, an
optional single sign, then decimal digits; `none` models `ValueError`. -/
def pyInt (s : String) : Option Int :=
  match pyStrip s.data with
  | '+' :: rest => (pyDigits rest).map (fun n => (n : Int))
  | '-' :: rest => (pyDigits rest).map (fun n => -(n : Int))
  | l => (pyDigits l).map (fun n => (n : Int))

/-- Embeds `get_optional_int_env` (spotify-bot.py lines 45-64), applied to the raw
result of `os.getenv(var_name)`: absent or empty gives `None`; otherwise the
value must parse as an integer, and a parse failure raises `ValueError`
(modelled as `Except.error`). -/
def get_optional_int_env (value : Option String) : Except String (Option Int) :=
  match value with
  | none => Except.ok none
  | some v =>
    if v = "" then Except.ok none
    else
      match pyInt v with
      | some n => Except.ok (some n)
      | none => Except.error "Environment variable must be an integer."

/-- Embeds `ZIP_THRESHOLD = get_optional_int_env("ZIP_THRESHOLD") or 10`
(spotify-bot.py line 71).  Python `or` keeps the left operand unless it is
falsy, and the falsy integers are exactly `None` and `0`. -/
def zip_threshold (value : Option String) : Except String Int :=
  match get_optional_int_env value with
  | Except.error e => Except.error e
  | Except.ok none => Except.ok 10
  | Except.ok (some n) => Except.ok (if n = 0 then 10 else n)

/-! ### Link recognition (`src/modules/spotify_api.py`) -/

/-- Models `re.sub(r'\?.*$', '', text)` (spotify_api.py lines 116, 145, 174).
`.` does not match a newline and, without MULTILINE, `$` matches only at the
end of the string or just before a final newline; so the span removed runs
from a `?` to the end provided no newline intervenes (a single final newline
may follow the span and is kept).  The scan is left to right, as `re.sub`
replaces the leftmost match. -/
def stripQueryTail : List Char → List Char
  | [] => []
  | '?' :: rest =>
    if ('\n' : Char) ∈ rest then
      if rest.getLast? = some '\n' ∧ ('\n' : Char) ∉ rest.dropLast then ['\n']
      else '?' :: stripQueryTail rest
    else []
  | c :: rest => c :: stripQueryTail rest

/-- The `([A-Za-z0-9]+)` capture group: the maximal leading alphanumeric run,
failing when it is empty. -/
def captureAlnum (l : List Char) : Option String :=
  match l.takeWhile Char.isAlphanum with
  | [] => none
  | run => some (String.mk run)

/-- Matches the part of the pattern
`open\.spotify\.com/(?:intl-[^/]+/)?<kind>/([A-Za-z0-9]+)` that follows the
literal host, at a fixed position.  As the regex engine does, the greedy
optional `intl-` locale group is tried first; `[^/]+` followed by `/` can
only denote the (nonempty) run up to the first slash.  If that alternative
fails, the group is skipped and `<kind>/` must follow directly. -/
def matchKindId (kind : String) (s : List Char) : Option String :=
  let plain : List Char → Option String := fun t =>
    if (kind.data ++ ['/']).isPrefixOf t then
      captureAlnum (t.drop (kind.data.length + 1))
    else none
  let viaIntl : Option String :=
    if ("intl-".data).isPrefixOf s then
      let after := s.drop 5
      let seg := after.takeWhile (fun c => c ≠ '/')
      if seg = [] then none
      else
        match after.drop seg.length with
        | '/' :: rest => plain rest
        | _ => none
    else none
  match viaIntl with
  | some r => some r
  | none => plain s

/-- Models `re.search` for the web-URL pattern: try each start position from left to
right; a match must begin with the literal `open.spotify.com/`. -/
def searchSpotifyId (kind : String) : List Char → Option String
  | [] => none
  | c :: cs =>
    match (if ("open.spotify.com/".data).isPrefixOf (c :: cs) then
             matchKindId kind ((c :: cs).drop ("open.spotify.com/".data).length)
           else none) with
    | some r => some r
    | none => searchSpotifyId kind cs

/-- Models `text.split(sep)` for a one-character separator, accumulating the
current piece in reverse. -/
def pySplitGo (sep : Char) : List Char → List Char → List (List Char)
  | [], cur => [cur.reverse]
  | c :: cs, cur =>
    if c = sep then cur.reverse :: pySplitGo sep cs []
    else pySplitGo sep cs (c :: cur)

/-- Models `text.split(sep)` for a one-character separator. -/
def pySplit (sep : Char) (l : List Char) : List (List Char) :=
  pySplitGo sep l []

/-- Common body of the three extractors (spotify_api.py lines 96-181):
falsy (empty) text gives `None`; after stripping whitespace, a
`spotify:<kind>:` URI returns everything after the last colon
(`text.split(':')[-1]`); otherwise the query string is removed and the
web-URL pattern is searched. -/
def extractSpotifyId (uriHead : String) (kind : String) (text : String) : Option String :=
  if text = "" then none
  else
    let t := pyStrip text.data
    if uriHead.data.isPrefixOf t then
      some (String.mk ((pySplit ':' t).getLastD []))
    else searchSpotifyId kind (stripQueryTail t)

/-- Embeds `SpotifyClient.extract_track_id` (spotify_api.py lines 96-123). -/
def extract_track_id (text : String) : Option String :=
  extractSpotifyId "spotify:track:" "track" text

/-- Embeds `SpotifyClient.extract_playlist_id` (spotify_api.py lines 125-152). -/
def extract_playlist_id (text : String) : Option String :=
  extractSpotifyId "spotify:playlist:" "playlist" text

/-- Embeds `SpotifyClient.extract_album_id` (spotify_api.py lines 154-181). -/
def extract_album_id (text : String) : Option String :=
  extractSpotifyId "spotify:album:" "album" text

/-- Embeds `is_spotify_link` parametrized by the three extractors it consults, the
way `test_is_spotify_link_relies_on_extract` substitutes them
(test_spotify_api.py lines 31-53). -/
def isSpotifyLinkWith (et ep ea : String → Option String) (text : String) : Bool :=
  (et text).isSome || (ep text).isSome || (ea text).isSome

/-- Embeds `SpotifyClient.is_spotify_link` (spotify_api.py lines 84-94): the
disjunction of the three extractors. -/
def is_spotify_link (text : String) : Bool :=
  isSpotifyLinkWith extract_track_id extract_playlist_id extract_album_id text

/-! ### The engine revision with pause/resume and the `enforce_quota` flag

`src/spotify-bot.py` calls `downloader.pause_quota_enforcement()`,
`downloader.resume_quota_enforcement()` (lines 460 and 536) and
`downloader.download_track(url, id, enforce_quota=False)` (line 442), but the
revision of `src/modules/downloader.py` present under src/ predates those
features (spec §9 records that the corresponding engine revision was not
available).  The definitions in this section are therefore modelled from the
spec (§4.5) on top of the faithfully embedded `enforce_storage_quota`. -/

/-- Modelled from the spec: the per-instance engine configuration, holding
the optional storage ceiling of `__init__` together with the instance-wide
pause flag of §4.5 (the `Downloader` revision implementing pause/resume is
missing from src/; only its call sites in `download_and_zip_tracks` exist
there). -/
structure DownloaderState where
  max_storage_mb : Option Int
  quotaPaused : Bool
deriving DecidableEq

/-- Modelled from the spec: quota enforcement is "no-op if quota is disabled
or the configured instance-wide pause flag is set" (§4.5); otherwise it is
the embedded `_enforce_storage_quota`. -/
def enforceQuotaPausable (d : DownloaderState) (st : FSState) : FSState × List String :=
  if d.quotaPaused then (st, [])
  else enforce_storage_quota (max_storage_bytes d.max_storage_mb) st

/-- Modelled from the spec: `pause_quota_enforcement` sets the instance-wide
pause flag (§4.5); it is missing from the src/ engine revision. -/
def pause_quota_enforcement (d : DownloaderState) : DownloaderState :=
  { d with quotaPaused := true }

/-- Modelled from the spec: `resume_quota_enforcement` clears the pause flag
and "triggers one catch-up enforcement pass immediately" (§4.5); it is
missing from the src/ engine revision.  Returns the updated instance state
and the effect of the catch-up pass. -/
def resume_quota_enforcement (d : DownloaderState) (st : FSState) :
    DownloaderState × (FSState × List String) :=
  let d2 : DownloaderState := { d with quotaPaused := false }
  (d2, enforceQuotaPausable d2 st)

/-- Result of one `download(url, track_id, enforce_quota)` call: the returned
path, whether the download library was invoked, and the effects (filesystem
state afterwards, `database.delete_track` calls made by enforcement). -/
structure DownloadOutcome where
  path : String
  usedDownloadLib : Bool
  fs : FSState
  dbDeleted : List String
deriving DecidableEq

/-- The target path `<tracks_dir>/<track_id>.mp3`. -/
def track_output_path (track_id : String) : String :=
  "downloads/tracks/" ++ track_id ++ ".mp3"

/-- Modelled from the spec: `download(url, track_id, enforce_quota = true)`
(§4.5) — the src/ revision of `download_track` predates the `enforce_quota`
flag (spec §9).  If the target already exists it is a cache hit: optionally
run quota enforcement per the flag and return the existing path; the download
library is never invoked.  Otherwise the library produces the mp3 (its
resulting size and ctime are parameters of the model, `url` only feeds the
library), then enforcement optionally runs per the flag. -/
def download_track (d : DownloaderState) (st : FSState) (_url : String)
    (track_id : String) (newSize newCtime : Nat)
    (enforce_quota : Bool := true) : DownloadOutcome :=
  if st.tracks.any (fun f => f.stem = track_id) then
    let r := if enforce_quota then enforceQuotaPausable d st else (st, [])
    ⟨track_output_path track_id, false, r.1, r.2⟩
  else
    let st2 : FSState :=
      { st with tracks := st.tracks ++ [⟨track_id, newSize, newCtime⟩] }
    let r := if enforce_quota then enforceQuotaPausable d st2 else (st2, [])
    ⟨track_output_path track_id, true, r.1, r.2⟩

/-! ### Sanity checks of the extractor embedding

These mirror the parametrized table of `test_extract_track_id`
(test_spotify_api.py lines 6-28). -/

example : extract_track_id "https://open.spotify.com/track/1234567890abcdef" =
    some "1234567890abcdef" := by decide

example : extract_track_id "https://open.spotify.com/track/abcdefghijklmno?si=deadbeef" =
    some "abcdefghijklmno" := by decide

example : extract_track_id "https://open.spotify.com/intl-en/track/1234567890abcdef" =
    some "1234567890abcdef" := by decide

example : extract_track_id "https://open.spotify.com/track/abcdefghijklmno/" =
    some "abcdefghijklmno" := by decide

example : extract_track_id "spotify:track:zzYYxx1122" = some "zzYYxx1122" := by decide

example : extract_track_id "https://open.spotify.com/playlist/abc" = none := by decide

example : extract_track_id "not a link" = none := by decide

/-! ### Claim theorems -/

/-- C8: `is_spotify_link(text)` is true iff at least one of the three
extractors returns a present id for `text`, and it is defined strictly as the
disjunction of the three extractor results, so substituting any extractor
changes the combined check accordingly. -/
theorem is_spotify_link_iff_extractors (et ep ea : String → Option String) (text : String) :
    (isSpotifyLinkWith et ep ea text = true ↔
      (et text).isSome = true ∨ (ep text).isSome = true ∨ (ea text).isSome = true) ∧
    is_spotify_link text =
      ((extract_track_id text).isSome || (extract_playlist_id text).isSome ||
        (extract_album_id text).isSome) := by
  constructor
  · simp [isSpotifyLinkWith, Bool.or_eq_true, or_assoc]
  · rfl

/-- C9: for every `Downloader` constructed with a storage ceiling that is
absent, zero, or negative, quota enforcement is a no-op — the downloads tree
and the persistence store are left unchanged regardless of the directory's
contents or total size. -/
theorem quota_disabled_noop (mb : Option Int) (st : FSState)
    (h : mb = none ∨ ∃ m, mb = some m ∧ m ≤ 0) :
    enforce_storage_quota (max_storage_bytes mb) st = (st, []) := by
  have hz : max_storage_bytes mb = 0 := by
    rcases h with rfl | ⟨m, rfl, hm⟩
    · rfl
    · simp [max_storage_bytes, hm]
  rw [hz]
  simp [enforce_storage_quota]

/-- Witness for C9 at the ceiling `-3` and a nonempty directory. -/
theorem quota_disabled_noop_witness :
    ((some (-3) : Option Int) = none ∨ ∃ m, (some (-3) : Option Int) = some m ∧ m ≤ 0) ∧
    enforce_storage_quota (max_storage_bytes (some (-3)))
        ⟨[⟨"a", 5000000, 0⟩], [⟨"a", 9, 0⟩], []⟩ =
      (⟨[⟨"a", 5000000, 0⟩], [⟨"a", 9, 0⟩], []⟩, []) := by
  have h : (some (-3) : Option Int) = none ∨
      ∃ m, (some (-3) : Option Int) = some m ∧ m ≤ 0 :=
    Or.inr ⟨-3, rfl, by decide⟩
  exact ⟨h, quota_disabled_noop (some (-3)) _ h⟩

/-- C7: the quota-eviction loop always terminates: an iteration that deletes
nothing (every candidate unlink failing) makes the loop abort after that pass
with everything unchanged; it also stops when no `.mp3` candidates remain or
when the total is within the ceiling; and the loop never needs more
iterations than there are track files (fuel beyond `tracks.length` is
irrelevant). -/
theorem eviction_loop_terminates (maxBytes : Nat) (st : FSState) :
    ((∀ f ∈ st.tracks, f.stem ∈ st.unlinkFails) →
      enforce_storage_quota maxBytes st = (st, [])) ∧
    (st.tracks = [] → enforce_storage_quota maxBytes st = (st, [])) ∧
    (directory_size st ≤ maxBytes → enforce_storage_quota maxBytes st = (st, [])) ∧
    (∀ fuel1 fuel2, st.tracks.length < fuel1 → st.tracks.length < fuel2 →
      evictLoop maxBytes fuel1 st = evictLoop maxBytes fuel2 st) := by
  refine ⟨?_, ?_, ?_, fun fuel1 fuel2 h1 h2 => evictLoop_fuel_irrelevant maxBytes fuel1 fuel2 st h1 h2⟩
  · intro hall
    unfold enforce_storage_quota
    by_cases h0 : maxBytes = 0
    · simp [h0]
    · by_cases hsize : directory_size st ≤ maxBytes
      · simp [h0, hsize]
      · simp only [h0, hsize, if_false]
        show evictLoop maxBytes (Nat.succ st.tracks.length) st = (st, [])
        unfold evictLoop
        cases hsort : sortByCtime st.tracks with
        | nil => rfl
        | cons f fs =>
          have hbatch : evictBatch st ((f :: fs).take CLEANUP_BATCH) = (st, []) := by
            apply evictBatch_all_fail
            intro g hg
            exact hall g (batch_mem_tracks st hsort hg)
          simp [hbatch]
  · intro hnil
    unfold enforce_storage_quota
    by_cases h0 : maxBytes = 0
    · simp [h0]
    · by_cases hsize : directory_size st ≤ maxBytes
      · simp [h0, hsize]
      · simp only [h0, hsize, if_false]
        show evictLoop maxBytes (Nat.succ st.tracks.length) st = (st, [])
        unfold evictLoop
        have hsort : sortByCtime st.tracks = [] := by
          rw [hnil]; rfl
        rw [hsort]
  · intro hsize
    unfold enforce_storage_quota
    by_cases h0 : maxBytes = 0 <;> simp [h0, hsize]

/-- Witness for C7: a stalled pass (the only candidate's unlink fails), an
empty candidate list, an under-the-ceiling state, and fuel irrelevance, each
at concrete inputs. -/
theorem eviction_loop_terminates_witness :
    enforce_storage_quota 100 ⟨[⟨"x", 2000000, 0⟩], [], ["x"]⟩ =
      (⟨[⟨"x", 2000000, 0⟩], [], ["x"]⟩, []) ∧
    enforce_storage_quota 100 ⟨[], [⟨"c", 500, 0⟩], []⟩ =
      (⟨[], [⟨"c", 500, 0⟩], []⟩, []) ∧
    enforce_storage_quota 100 ⟨[⟨"y", 10, 0⟩], [], []⟩ =
      (⟨[⟨"y", 10, 0⟩], [], []⟩, []) ∧
    evictLoop 100 5 ⟨[⟨"z", 300, 0⟩], [], []⟩ =
      evictLoop 100 2 ⟨[⟨"z", 300, 0⟩], [], []⟩ := by
  refine ⟨(eviction_loop_terminates 100 _).1 (by decide),
    (eviction_loop_terminates 100 _).2.1 rfl,
    (eviction_loop_terminates 100 _).2.2.1 (by decide),
    (eviction_loop_terminates 100 _).2.2.2 5 2 (by decide) (by decide)⟩

/-- The chunk produced by the packing loop is within the limit unless it is a
single oversized file: invariant of `zipChunksGo`. -/
theorem zipChunksGo_invariant :
    ∀ (sizes cur : List Nat) (curSize : Nat) (acc : List (List Nat)),
      curSize = cur.sum →
      (∀ c ∈ acc, c.sum ≤ MAX_ZIP_SIZE ∨ ∃ s, c = [s] ∧ MAX_ZIP_SIZE < s) →
      (cur.sum ≤ MAX_ZIP_SIZE ∨ ∃ s, cur = [s] ∧ MAX_ZIP_SIZE < s) →
      ∀ c ∈ zipChunksGo sizes cur curSize acc,
        c.sum ≤ MAX_ZIP_SIZE ∨ ∃ s, c = [s] ∧ MAX_ZIP_SIZE < s := by
  intro sizes
  induction sizes with
  | nil =>
    intro cur curSize acc _ hacc hcur c hc
    unfold zipChunksGo at hc
    by_cases hnil : cur = []
    · rw [if_pos hnil] at hc
      exact hacc c hc
    · rw [if_neg hnil] at hc
      rcases List.mem_append.1 hc with h | h
      · exact hacc c h
      · rw [List.mem_singleton.1 h]
        exact hcur
  | cons size rest ih =>
    intro cur curSize acc hsum hacc hcur c hc
    unfold zipChunksGo at hc
    by_cases hcond : curSize + size > MAX_ZIP_SIZE ∧ cur ≠ []
    · rw [if_pos hcond] at hc
      refine ih [size] size (acc ++ [cur]) (by simp) ?_ ?_ c hc
      · intro c2 hc2
        rcases List.mem_append.1 hc2 with h | h
        · exact hacc c2 h
        · rw [List.mem_singleton.1 h]
          exact hcur
      · rcases le_or_lt size MAX_ZIP_SIZE with hle | hlt
        · exact Or.inl (by simpa using hle)
        · exact Or.inr ⟨size, rfl, hlt⟩
    · rw [if_neg hcond] at hc
      refine ih (cur ++ [size]) (curSize + size) acc (by simp [hsum]) hacc ?_ c hc
      rcases Decidable.not_and_iff_or_not.1 hcond with hsz | hnil
      · have hle : curSize + size ≤ MAX_ZIP_SIZE := Nat.le_of_not_lt hsz
        exact Or.inl (by simpa [hsum] using hle)
      · have hnil' : cur = [] := Decidable.not_not.1 hnil
        subst hnil'
        rcases le_or_lt size MAX_ZIP_SIZE with hle | hlt
        · exact Or.inl (by simpa using hle)
        · exact Or.inr ⟨size, by simp, hlt⟩

/-- C6: for every list of downloaded file sizes, archive chunking never
produces a chunk whose total size exceeds `MAX_ZIP_SIZE` (48 MiB), except
that a chunk may exceed the limit when it is a single file whose own size
already exceeds it. -/
theorem zip_chunk_size_bound (sizes chunk : List Nat) (hmem : chunk ∈ zipChunks sizes) :
    chunk.sum ≤ MAX_ZIP_SIZE ∨ ∃ s, chunk = [s] ∧ MAX_ZIP_SIZE < s :=
  zipChunksGo_invariant sizes [] 0 [] rfl (by simp) (Or.inl (by simp)) chunk hmem

/-- Witness for C6: an oversized single file is placed alone in its own
chunk, and the bound holds for it via the excuse clause. -/
theorem zip_chunk_size_bound_witness :
    [MAX_ZIP_SIZE + 1] ∈ zipChunks [MAX_ZIP_SIZE + 1, 1] ∧
    ([MAX_ZIP_SIZE + 1].sum ≤ MAX_ZIP_SIZE ∨
      ∃ s, [MAX_ZIP_SIZE + 1] = [s] ∧ MAX_ZIP_SIZE < s) := by
  have hmem : [MAX_ZIP_SIZE + 1] ∈ zipChunks [MAX_ZIP_SIZE + 1, 1] := by decide
  exact ⟨hmem, zip_chunk_size_bound _ _ hmem⟩

/-- C3 counterexample: a configured `ZIP_THRESHOLD` of `-5` parses fine and,
being a truthy (nonzero) integer, survives the `or 10` fallback — the
effective threshold is `-5`, not the claimed default of `10`. -/
theorem zip_threshold_negative_counterexample :
    zip_threshold (some "-5") = Except.ok (-5) ∧ (-5 : Int) ≠ 10 := by
  exact ⟨rfl, by decide⟩

/-- C3 (amended): an absent or empty `ZIP_THRESHOLD` value, or one parsing to
zero, yields the default 10; a value parsing to any nonzero integer — in
particular a negative one — is kept as-is; a present non-numeric value is a
fatal configuration error. -/
theorem zip_threshold_fallback (value : Option String) :
    (value = none → zip_threshold value = Except.ok 10) ∧
    (value = some "" → zip_threshold value = Except.ok 10) ∧
    (∀ s n, value = some s → s ≠ "" → pyInt s = some n →
      zip_threshold value = Except.ok (if n = 0 then 10 else n)) ∧
    (∀ s, value = some s → s ≠ "" → pyInt s = none →
      zip_threshold value = Except.error "Environment variable must be an integer.") := by
  refine ⟨?_, ?_, ?_, ?_⟩
  · rintro rfl
    rfl
  · rintro rfl
    rfl
  · rintro s n rfl hne hparse
    simp [zip_threshold, get_optional_int_env, hne, hparse]
  · rintro s rfl hne hparse
    simp [zip_threshold, get_optional_int_env, hne, hparse]

/-- Witness for C3 (amended) at absent, `"0"`, `"7"` and `"abc"` values. -/
theorem zip_threshold_fallback_witness :
    zip_threshold none = Except.ok 10 ∧
    zip_threshold (some "0") = Except.ok 10 ∧
    zip_threshold (some "7") = Except.ok 7 ∧
    zip_threshold (some "abc") = Except.error "Environment variable must be an integer." := by
  refine ⟨(zip_threshold_fallback none).1 rfl, ?_, ?_, ?_⟩
  · have h := (zip_threshold_fallback (some "0")).2.2.1 "0" 0 rfl (by decide) (by decide)
    simpa using h
  · have h := (zip_threshold_fallback (some "7")).2.2.1 "7" 7 rfl (by decide) (by decide)
    simpa using h
  · exact (zip_threshold_fallback (some "abc")).2.2.2 "abc" rfl (by decide) (by decide)

/-- C4 counterexample: the claim lists the backslash among the characters
replaced by an underscore, but the character class `[\/:*?"<>|]` escapes the
forward slash, not the backslash — a collection name consisting of a single
backslash is left unchanged by sanitization. -/
theorem zip_filename_backslash_counterexample :
    sanitized_collection_name "\\" = "\\" ∧
    zip_filename "\\" 0 = "\\ (Часть 1).zip" ∧
    ("\\ (Часть 1).zip" : String) ≠ "_ (Часть 1).zip" := by
  exact ⟨by decide, by decide, by decide⟩

/-- Lemma that `re.sub` over a single-character class is a character-wise map. -/
theorem reSubZipForbidden_eq_map (l : List Char) :
    reSubZipForbidden l = l.map (fun c => if zipNameForbidden c then '_' else c) := by
  induction l with
  | nil => rfl
  | cons c cs ih => simp [reSubZipForbidden, ih]

/-- C4 (amended): the archive filename is built by replacing every occurrence
of each of the eight characters `/ : * ? " < > |` in the collection name with
an underscore (the backslash is not replaced), and the chunk at 0-based index
`i` is named `"<sanitized collection name> (Часть <i+1>).zip"`. -/
theorem zip_filename_sanitization (collection_name : String) (i : Nat) :
    zip_filename collection_name i =
      sanitized_collection_name collection_name ++ " (Часть " ++ toString (i + 1) ++ ").zip" ∧
    (sanitized_collection_name collection_name).data =
      collection_name.data.map (fun c => if zipNameForbidden c then '_' else c) ∧
    sanitized_collection_name "/:*?\"<>|\\" = "________\\" := by
  refine ⟨rfl, ?_, by decide⟩
  show (String.mk (reSubZipForbidden collection_name.data)).data = _
  rw [reSubZipForbidden_eq_map]

/-- C1: the Audio Acquisition Engine exposes pause and resume of automatic
quota enforcement — on every instance, pausing sets the instance-wide flag
and makes enforcement a no-op, and resuming clears the flag and immediately
triggers one catch-up enforcement pass.  (The engine revision implementing
this is modelled from the spec; see `pause_quota_enforcement`.) -/
theorem pause_resume_quota_enforcement (d : DownloaderState) (st : FSState) :
    (pause_quota_enforcement d).quotaPaused = true ∧
    enforceQuotaPausable (pause_quota_enforcement d) st = (st, []) ∧
    (resume_quota_enforcement d st).1.quotaPaused = false ∧
    (resume_quota_enforcement d st).2 =
      enforce_storage_quota (max_storage_bytes d.max_storage_mb) st := by
  refine ⟨rfl, ?_, rfl, ?_⟩
  · simp [enforceQuotaPausable, pause_quota_enforcement]
  · simp [resume_quota_enforcement, enforceQuotaPausable]

/-- C2: when the target `<tracks_dir>/<track_id>.mp3` already exists,
`download` never invokes the download library and returns the existing path,
regardless of the `enforce_quota` flag; and calling it with
`enforce_quota = false` (as the archive flow does) skips immediate quota
enforcement entirely.  (The `enforce_quota`-flagged revision of
`download_track` is modelled from the spec; see `download_track`.) -/
theorem download_cache_hit_no_library (d : DownloaderState) (st : FSState)
    (url track_id : String) (newSize newCtime : Nat) (fl : Bool)
    (hcache : st.tracks.any (fun f => f.stem = track_id) = true) :
    (download_track d st url track_id newSize newCtime fl).usedDownloadLib = false ∧
    (download_track d st url track_id newSize newCtime fl).path = track_output_path track_id ∧
    (download_track d st url track_id newSize newCtime false).fs = st ∧
    (download_track d st url track_id newSize newCtime false).dbDeleted = [] := by
  refine ⟨?_, ?_, ?_, ?_⟩ <;> simp [download_track, hcache]

/-- Witness for C2 at a concrete cached state. -/
theorem download_cache_hit_no_library_witness :
    ((⟨[⟨"t1", 5, 0⟩], [], []⟩ : FSState).tracks.any (fun f => f.stem = "t1") = true) ∧
    (download_track ⟨some 1, false⟩ ⟨[⟨"t1", 5, 0⟩], [], []⟩ "u" "t1" 9 9 false).usedDownloadLib
        = false ∧
    (download_track ⟨some 1, false⟩ ⟨[⟨"t1", 5, 0⟩], [], []⟩ "u" "t1" 9 9 false).fs
        = ⟨[⟨"t1", 5, 0⟩], [], []⟩ := by
  have hcache : (⟨[⟨"t1", 5, 0⟩], [], []⟩ : FSState).tracks.any (fun f => f.stem = "t1")
      = true := by decide
  have h := download_cache_hit_no_library ⟨some 1, false⟩ ⟨[⟨"t1", 5, 0⟩], [], []⟩
    "u" "t1" 9 9 false hcache
  exact ⟨hcache, h.1, h.2.2.1⟩

/-- Filtering for one stem is unaffected by first filtering away a different
stem. -/
theorem filter_stem_of_filter_ne (l : List FSFile) (s g : String) (hne : s ≠ g) :
    (l.filter (fun t => t.stem ≠ g)).filter (fun t => t.stem = s) =
      l.filter (fun t => t.stem = s) := by
  rw [List.filter_filter]
  apply List.filter_congr
  intro t _
  by_cases ht : t.stem = s
  · have htg : t.stem ≠ g := by rw [ht]; exact hne
    simp [ht, htg, hne]
  · simp [ht]

/-- C10: eviction is per-file atomic — during one eviction iteration, a track
whose `.mp3` unlink raises keeps its audio file, its cover image, and its
cached metadata row (its id is never passed to `database.delete_track`). -/
theorem eviction_atomic_per_file (st : FSState) (batch : List FSFile) (s : String)
    (hfail : s ∈ st.unlinkFails) :
    (evictBatch st batch).1.tracks.filter (fun t => t.stem = s) =
        st.tracks.filter (fun t => t.stem = s) ∧
    (evictBatch st batch).1.covers.filter (fun c => c.stem = s) =
        st.covers.filter (fun c => c.stem = s) ∧
    s ∉ (evictBatch st batch).2 := by
  induction batch generalizing st with
  | nil => exact ⟨rfl, rfl, by simp [evictBatch]⟩
  | cons f rest ih =>
    have hunfold : evictBatch st (f :: rest) =
        ((evictBatch (evictFile st f).1 rest).1,
          (evictFile st f).2 ++ (evictBatch (evictFile st f).1 rest).2) := rfl
    by_cases hf : f.stem ∈ st.unlinkFails
    · have hfile : evictFile st f = (st, []) := by
        unfold evictFile
        rw [if_pos hf]
      rw [hunfold, hfile]
      have ihr := ih st hfail
      exact ⟨ihr.1, ihr.2.1, by simpa using ihr.2.2⟩
    · have hsne : s ≠ f.stem := fun he => hf (he ▸ hfail)
      have hfile : evictFile st f =
          ({ st with
              tracks := st.tracks.filter (fun t => t.stem ≠ f.stem),
              covers := st.covers.filter (fun c => c.stem ≠ f.stem) },
            [f.stem]) := by
        unfold evictFile
        rw [if_neg hf]
      rw [hunfold, hfile]
      have ihr := ih
        { st with
            tracks := st.tracks.filter (fun t => t.stem ≠ f.stem),
            covers := st.covers.filter (fun c => c.stem ≠ f.stem) } hfail
      refine ⟨?_, ?_, ?_⟩
      · dsimp only
        rw [ihr.1]
        exact filter_stem_of_filter_ne st.tracks s f.stem hsne
      · dsimp only
        rw [ihr.2.1]
        exact filter_stem_of_filter_ne st.covers s f.stem hsne
      · dsimp only
        simp only [List.singleton_append, List.mem_cons]
        rintro (he | hmem2)
        · exact hsne he
        · exact ihr.2.2 hmem2

/-- Witness for C10: a failing track alongside a deletable one. -/
theorem eviction_atomic_per_file_witness :
    ("bad" ∈ (⟨[⟨"bad", 10, 0⟩, ⟨"ok", 10, 1⟩], [⟨"bad", 1, 0⟩, ⟨"ok", 1, 0⟩],
        ["bad"]⟩ : FSState).unlinkFails) ∧
    ((evictBatch ⟨[⟨"bad", 10, 0⟩, ⟨"ok", 10, 1⟩], [⟨"bad", 1, 0⟩, ⟨"ok", 1, 0⟩], ["bad"]⟩
        [⟨"bad", 10, 0⟩, ⟨"ok", 10, 1⟩]).1.covers.filter (fun c => c.stem = "bad") =
      (⟨[⟨"bad", 10, 0⟩, ⟨"ok", 10, 1⟩], [⟨"bad", 1, 0⟩, ⟨"ok", 1, 0⟩],
        ["bad"]⟩ : FSState).covers.filter (fun c => c.stem = "bad")) ∧
    "bad" ∉ (evictBatch ⟨[⟨"bad", 10, 0⟩, ⟨"ok", 10, 1⟩], [⟨"bad", 1, 0⟩, ⟨"ok", 1, 0⟩], ["bad"]⟩
        [⟨"bad", 10, 0⟩, ⟨"ok", 10, 1⟩]).2 := by
  have hfail : "bad" ∈ (⟨[⟨"bad", 10, 0⟩, ⟨"ok", 10, 1⟩], [⟨"bad", 1, 0⟩, ⟨"ok", 1, 0⟩],
      ["bad"]⟩ : FSState).unlinkFails := by decide
  have h := eviction_atomic_per_file
    ⟨[⟨"bad", 10, 0⟩, ⟨"ok", 10, 1⟩], [⟨"bad", 1, 0⟩, ⟨"ok", 1, 0⟩], ["bad"]⟩
    [⟨"bad", 10, 0⟩, ⟨"ok", 10, 1⟩] "bad" hfail
  exact ⟨hfail, h.2.1, h.2.2⟩

/-- C5: three cached audio files of 600,000 bytes each with distinct,
strictly increasing creation times, under a ceiling of 1 MB (1,048,576
bytes, i.e. `Downloader(max_storage_mb=1)`): one enforcement call deletes
exactly the two oldest files together with their matching covers, leaves the
newest audio file and its cover intact, and calls `database.delete_track`
exactly for the two evicted ids, oldest first. -/
theorem quota_evicts_two_oldest (t0 t1 t2 : Nat) (h01 : t0 < t1) (h12 : t1 < t2) :
    enforce_storage_quota (max_storage_bytes (some 1))
      ⟨[⟨"0", 600000, t0⟩, ⟨"1", 600000, t1⟩, ⟨"2", 600000, t2⟩],
       [⟨"0", 1, 0⟩, ⟨"1", 1, 0⟩, ⟨"2", 1, 0⟩], []⟩ =
    (⟨[⟨"2", 600000, t2⟩], [⟨"2", 1, 0⟩], []⟩, ["0", "1"]) := by
  have h01' : t0 ≤ t1 := Nat.le_of_lt h01
  have h12' : t1 ≤ t2 := Nat.le_of_lt h12
  have hmax : max_storage_bytes (some 1) = 1048576 := rfl
  rw [hmax]
  have hsort : sortByCtime [⟨"0", 600000, t0⟩, ⟨"1", 600000, t1⟩, ⟨"2", 600000, t2⟩] =
      [⟨"0", 600000, t0⟩, ⟨"1", 600000, t1⟩, ⟨"2", 600000, t2⟩] := by
    unfold sortByCtime
    simp [List.insertionSort, List.orderedInsert, h01', h12']
  have hstep : ∀ (mB fuel : Nat) (s : FSState), evictLoop mB (fuel + 1) s =
      (match sortByCtime s.tracks with
       | [] => (s, [])
       | f :: fs =>
         let r := evictBatch s ((f :: fs).take CLEANUP_BATCH)
         if r.2 = [] then (r.1, [])
         else if directory_size r.1 ≤ mB then r
         else
           let r2 := evictLoop mB fuel r.1
           (r2.1, r.2 ++ r2.2)) := fun _ _ _ => rfl
  have hbatch : evictBatch
      ⟨[⟨"0", 600000, t0⟩, ⟨"1", 600000, t1⟩, ⟨"2", 600000, t2⟩],
       [⟨"0", 1, 0⟩, ⟨"1", 1, 0⟩, ⟨"2", 1, 0⟩], []⟩
      (((⟨"0", 600000, t0⟩ : FSFile) :: [⟨"1", 600000, t1⟩, ⟨"2", 600000, t2⟩]).take
        CLEANUP_BATCH) =
      (⟨[⟨"2", 600000, t2⟩], [⟨"2", 1, 0⟩], []⟩, ["0", "1"]) := rfl
  unfold enforce_storage_quota
  rw [if_neg (by norm_num : ¬((1048576 : Nat) = 0))]
  rw [if_neg (by norm_num [directory_size] : ¬(directory_size
    (⟨[⟨"0", 600000, t0⟩, ⟨"1", 600000, t1⟩, ⟨"2", 600000, t2⟩],
      [⟨"0", 1, 0⟩, ⟨"1", 1, 0⟩, ⟨"2", 1, 0⟩], []⟩ : FSState) ≤ 1048576))]
  show evictLoop 1048576 (3 + 1) _ = _
  rw [hstep]
  rw [hsort]
  dsimp only
  rw [hbatch]
  dsimp only
  rw [if_neg (by decide : ¬((["0", "1"] : List String) = []))]
  rw [if_pos (by norm_num [directory_size] : directory_size
    (⟨[⟨"2", 600000, t2⟩], [⟨"2", 1, 0⟩], []⟩ : FSState) ≤ 1048576)]

/-- Witness for C5 at creation times 10 < 20 < 30. -/
theorem quota_evicts_two_oldest_witness :
    ((10 : Nat) < 20 ∧ (20 : Nat) < 30) ∧
    enforce_storage_quota (max_storage_bytes (some 1))
        ⟨[⟨"0", 600000, 10⟩, ⟨"1", 600000, 20⟩, ⟨"2", 600000, 30⟩],
         [⟨"0", 1, 0⟩, ⟨"1", 1, 0⟩, ⟨"2", 1, 0⟩], []⟩ =
      (⟨[⟨"2", 600000, 30⟩], [⟨"2", 1, 0⟩], []⟩, ["0", "1"]) :=
  ⟨⟨by decide, by decide⟩, quota_evicts_two_oldest 10 20 30 (by decide) (by decide)⟩
